import Mathlib

/-!
Shallow embedding of the QuantumX Discord bot (src/bot/index.js): the
experience/leveling engine (`EventHandler.awardXP`), the command dispatch
and audit-logging pipeline (`CommandHandler.handleCommand` and
`CommandHandler.logCommandUsage`), and the guild-join lifecycle path
(`EventHandler.createServerConfig` composed with
`EventHandler.updateBotStats`).

Machine numbers are modelled as `Nat`/`Int`/`Rat`; the JS call
`Math.random()` is modelled as an arbitrary rational `r` with
`0 ≤ r < 1`; database rows are explicit structures, and each stateful
routine is a pure function from the relevant rows and clock readings to
the rows it writes and the replies it emits.
-/

namespace QuantumBot

/-- A stored `user_levels` row, keyed by the (user, server) pair that the
code reads it by.  The random `id` column and the textual form of the
`last_xp_gain` timestamp are abstracted away: `last_xp_gain` holds the
epoch-milliseconds value that `new Date(existing.last_xp_gain).getTime()`
yields, `none` when the column is NULL (the code treats a missing value as
falsy and skips the cooldown check). -/
structure UserLevelRow where
  xp : ℕ
  level : ℕ
  messages_sent : ℕ
  last_xp_gain : Option ℤ
  deriving Repr, DecidableEq

/-- Embedding of `Math.floor(Math.random() * 15) + 10` (line 189): the XP
delta drawn for one qualifying message, as a function of the random sample
`r` that `Math.random()` returned. -/
def xpToAward (r : ℚ) : ℤ :=
  ⌊r * 15⌋ + 10

/-- Embedding of `Math.floor(0.1 * Math.sqrt(newXP))` (line 205) on a
natural number of experience points: for `x : ℕ` one has
`⌊0.1 * Real.sqrt x⌋ = Nat.sqrt x / 10` (proved below as
`levelFromXP_eq_floor`), so the level is computed with integer square
root and integer division. -/
def levelFromXP (x : ℕ) : ℕ :=
  Nat.sqrt x / 10

/-- What one call of `awardXP` produces for the addressed (user, server)
pair: the row stored afterwards (unchanged on the cooldown no-op path) and
the level announced by the congratulation reply, `none` when no reply is
sent. -/
structure AwardOutcome where
  row : Option UserLevelRow
  reply : Option ℕ
  deriving Repr, DecidableEq

/-- Embedding of `EventHandler.awardXP` (lines 185-228) for one
(user, server) pair: `existing` is the row the SELECT returned (`none`
when absent), `now` the clock reading `Date.now()`, and `r` the
`Math.random()` sample.  The cooldown check fires only when a row exists
and its `last_xp_gain` is set; the update branch recomputes the level
from the new cumulative total and replies exactly when the new level
exceeds the stored one; the insert branch stores level 0 and
messages_sent 1 and never replies. -/
def awardXP (existing : Option UserLevelRow) (now : ℤ) (r : ℚ) : AwardOutcome :=
  let delta := (xpToAward r).toNat
  match existing with
  | some ex =>
    match ex.last_xp_gain with
    | some lastGain =>
      if now - lastGain < 60000 then
        ⟨some ex, none⟩
      else
        let newXP := ex.xp + delta
        let newLevel := levelFromXP newXP
        ⟨some ⟨newXP, newLevel, ex.messages_sent + 1, some now⟩,
         if ex.level < newLevel then some newLevel else none⟩
    | none =>
      let newXP := ex.xp + delta
      let newLevel := levelFromXP newXP
      ⟨some ⟨newXP, newLevel, ex.messages_sent + 1, some now⟩,
       if ex.level < newLevel then some newLevel else none⟩
  | none =>
    ⟨some ⟨delta, 0, 1, some now⟩, none⟩

/-- The integer-arithmetic level formula used by the embedding agrees with
the real-number formula `floor(0.1 * sqrt x)` of the source. -/
theorem levelFromXP_eq_floor (x : ℕ) :
    levelFromXP x = ⌊(0.1 : ℝ) * Real.sqrt x⌋₊ := by
  have h : (0.1 : ℝ) * Real.sqrt x = Real.sqrt x / ((10 : ℕ) : ℝ) := by
    push_cast
    ring_nf
  rw [h, Nat.floor_div_nat, Real.nat_floor_real_sqrt_eq_nat_sqrt]
  rfl

/-- Bounds on the drawn delta: for any random sample in `[0, 1)` the
award is between 10 and 24. -/
theorem xpToAward_bounds (r : ℚ) (h0 : 0 ≤ r) (h1 : r < 1) :
    10 ≤ xpToAward r ∧ xpToAward r ≤ 24 := by
  unfold xpToAward
  constructor
  · have : (0 : ℤ) ≤ ⌊r * 15⌋ := by
      apply Int.floor_nonneg.mpr
      positivity
    omega
  · have : ⌊r * 15⌋ < 15 := by
      apply Int.floor_lt.mpr
      push_cast
      nlinarith
    omega

/-- C2: the claim asserts the drawn XP delta ranges over [10, 25] with every
integer in that range attainable; on the code, for every random sample in
[0, 1) the delta lies in [10, 24], and in particular no sample ever yields
25, so the upper end of the claimed range is unattainable. -/
theorem xpToAward_range_misses_25 :
    (∀ r : ℚ, 0 ≤ r → r < 1 → 10 ≤ xpToAward r ∧ xpToAward r ≤ 24) ∧
    ¬ ∃ r : ℚ, 0 ≤ r ∧ r < 1 ∧ xpToAward r = 25 := by
  refine ⟨fun r h0 h1 => xpToAward_bounds r h0 h1, ?_⟩
  rintro ⟨r, h0, h1, heq⟩
  have h := (xpToAward_bounds r h0 h1).2
  omega

/-- C4: after every write performed by the award operation (the insert on a
first contribution as well as the update on a subsequent one), the stored
level equals floor(0.1 * sqrt(stored xp)); on the cooldown no-op path no
write happens, which the hypothesis `hwrite` excludes. -/
theorem awardXP_level_rederivable (existing : Option UserLevelRow) (now : ℤ) (r : ℚ)
    (h0 : 0 ≤ r) (h1 : r < 1)
    (hwrite : (awardXP existing now r).row ≠ existing) :
    ∀ row, (awardXP existing now r).row = some row →
      row.level = ⌊(0.1 : ℝ) * Real.sqrt (row.xp : ℝ)⌋₊ := by
  intro row hrow
  rw [← levelFromXP_eq_floor]
  have hdelta : (xpToAward r).toNat ≤ 24 := by
    have h := (xpToAward_bounds r h0 h1).2
    omega
  have hlevel0 : levelFromXP ((xpToAward r).toNat) = 0 := by
    have hlt : Nat.sqrt ((xpToAward r).toNat) < 10 := Nat.sqrt_lt.mpr (by omega)
    unfold levelFromXP
    exact Nat.div_eq_of_lt hlt
  rcases existing with _ | ex
  · simp only [awardXP] at hrow
    cases hrow
    simpa using hlevel0.symm
  · rcases hl : ex.last_xp_gain with _ | t
    · simp only [awardXP, hl] at hrow
      cases hrow
      rfl
    · simp only [awardXP, hl] at hrow
      by_cases hcool : now - t < 60000
      · rw [if_pos hcool] at hrow
        exfalso
        apply hwrite
        simp only [awardXP, hl, if_pos hcool]
      · rw [if_neg hcool] at hrow
        cases hrow
        rfl

/-- Concrete values of the integer square root, for the witnesses. -/
theorem sqrt_100 : Nat.sqrt 100 = 10 :=
  (Nat.eq_sqrt.mpr (by norm_num)).symm

/-- Concrete value of the integer square root of 110, for the witnesses. -/
theorem sqrt_110 : Nat.sqrt 110 = 10 :=
  (Nat.eq_sqrt.mpr (by norm_num)).symm

/-- Witness for C4 at a concrete first contribution: with no prior row,
clock 0 and random sample one half, the inserted row is (xp 17, level 0)
and its level equals the floor formula. -/
theorem awardXP_level_rederivable_witness :
    (⟨17, 0, 1, some 0⟩ : UserLevelRow).level =
      ⌊(0.1 : ℝ) * Real.sqrt (((⟨17, 0, 1, some 0⟩ : UserLevelRow).xp : ℕ) : ℝ)⌋₊ := by
  refine awardXP_level_rederivable none 0 (1/2) (by norm_num) (by norm_num) ?_
    ⟨17, 0, 1, some 0⟩ ?_
  · simp [awardXP]
  · norm_num [awardXP, xpToAward]
    rfl

/-- C5: when the stored row carries a last-award timestamp `t` and the new
message arrives less than 60000 ms after it, the award operation returns
with the row unchanged and no reply; and whatever clock reading makes the
operation mutate the row must be at least 60000 ms after `t`, so two
sequential awards are never recorded less than a minute apart. -/
theorem awardXP_cooldown_gate (ex : UserLevelRow) (t now : ℤ) (r : ℚ)
    (hlast : ex.last_xp_gain = some t) :
    (now - t < 60000 → awardXP (some ex) now r = ⟨some ex, none⟩) ∧
    (∀ now2 : ℤ, (awardXP (some ex) now2 r).row ≠ some ex → 60000 ≤ now2 - t) := by
  constructor
  · intro hcool
    simp only [awardXP, hlast, if_pos hcool]
  · intro now2 hne
    by_contra hlt
    push_neg at hlt
    apply hne
    simp only [awardXP, hlast, if_pos hlt]

/-- Witness for C5 at the concrete case given in the spec: xp 100, level 1,
last award at time 0, a new message at 30000 ms; nothing is mutated and no
reply is sent. -/
theorem awardXP_cooldown_gate_witness :
    awardXP (some ⟨100, 1, 5, some 0⟩) 30000 (1/2) =
      ⟨some ⟨100, 1, 5, some 0⟩, none⟩ :=
  (awardXP_cooldown_gate ⟨100, 1, 5, some 0⟩ 0 30000 (1/2) rfl).1 (by decide)

/-- C6: on an update of an existing row that passes the cooldown gate, the
congratulation reply is sent, naming the newly derived level, exactly when
that level strictly exceeds the previously stored one. -/
theorem awardXP_levelUp_iff (ex : UserLevelRow) (now : ℤ) (r : ℚ)
    (hcool : ∀ t, ex.last_xp_gain = some t → 60000 ≤ now - t) :
    (awardXP (some ex) now r).reply =
      if ex.level < levelFromXP (ex.xp + (xpToAward r).toNat)
      then some (levelFromXP (ex.xp + (xpToAward r).toNat))
      else none := by
  rcases hl : ex.last_xp_gain with _ | t
  · simp only [awardXP, hl]
  · have ht := hcool t hl
    have hno : ¬ (now - t < 60000) := by omega
    simp only [awardXP, hl, if_neg hno]

/-- Witness for C6 at the concrete case given in the spec: xp 80, level 0, a
draw of delta 20 (random sample two thirds) gives total 100, new level 1,
and the level-up reply names level 1. -/
theorem awardXP_levelUp_iff_witness :
    (awardXP (some ⟨80, 0, 5, none⟩) 0 (2/3)).reply = some 1 := by
  have h := awardXP_levelUp_iff ⟨80, 0, 5, none⟩ 0 (2/3) (by simp)
  rw [h]
  have ht : Int.toNat 20 = 20 := rfl
  norm_num [xpToAward, levelFromXP, ht, sqrt_100]

/-- C10: when the stored row exists but its last-award timestamp is NULL,
the cooldown gate does not apply: for every clock reading the award
operation mutates the row (new xp, rederived level, message count bumped,
timestamp set), and the stored row genuinely changes. -/
theorem awardXP_no_cooldown_when_null (ex : UserLevelRow) (now : ℤ) (r : ℚ)
    (hnull : ex.last_xp_gain = none) :
    (awardXP (some ex) now r).row =
      some ⟨ex.xp + (xpToAward r).toNat,
            levelFromXP (ex.xp + (xpToAward r).toNat),
            ex.messages_sent + 1, some now⟩ ∧
    (awardXP (some ex) now r).row ≠ some ex := by
  have hrow : (awardXP (some ex) now r).row =
      some ⟨ex.xp + (xpToAward r).toNat,
            levelFromXP (ex.xp + (xpToAward r).toNat),
            ex.messages_sent + 1, some now⟩ := by
    simp only [awardXP, hnull]
  refine ⟨hrow, ?_⟩
  rw [hrow]
  intro h
  injection h with h2
  have hm := congrArg UserLevelRow.messages_sent h2
  simp only at hm
  omega

/-- Witness for C10: a row with xp 100, level 1 and NULL last-award
timestamp is updated immediately (random sample 0 draws delta 10). -/
theorem awardXP_no_cooldown_when_null_witness :
    (awardXP (some ⟨100, 1, 5, none⟩) 42 0).row = some ⟨110, 1, 6, some 42⟩ ∧
    (awardXP (some ⟨100, 1, 5, none⟩) 42 0).row ≠ some ⟨100, 1, 5, none⟩ := by
  have h := awardXP_no_cooldown_when_null ⟨100, 1, 5, none⟩ 42 0 rfl
  have ht : Int.toNat 10 = 10 := rfl
  exact ⟨by rw [h.1]; norm_num [xpToAward, levelFromXP, ht, sqrt_110], h.2⟩

/-- The slash-command interaction as `handleCommand` consumes it: the
fields the code reads (`commandName`, `guildId`, `user.id`,
`createdTimestamp`, the `replied`/`deferred` flags at dispatch entry)
together with the behaviour of the platform reply calls for this
invocation: `replyFails` (resp. `followUpFails`) says whether an
`interaction.reply` (resp. `interaction.followUp`) call made by the
dispatcher would throw. -/
structure Interaction where
  commandName : String
  guildId : String
  userId : String
  createdTimestamp : ℤ
  replied : Bool
  deferred : Bool
  replyFails : Bool
  followUpFails : Bool

/-- A registered command as the dispatcher sees it: the outcome of
`command.execute(interaction, env)` — `Except.ok` when the handler
returns, `Except.error msg` when it throws an error whose `message` is
`msg` — and whether the handler sent or deferred a reply of its own
before finishing or throwing (which flips `interaction.replied` or
`interaction.deferred`). -/
structure Command where
  execute : Except String Unit
  marksReplied : Bool

/-- One row of the `command_usage` audit table as
`CommandHandler.logCommandUsage` inserts it (lines 46-66); the random
`id` and the `used_at` CURRENT_TIMESTAMP column are abstracted away. -/
structure UsageRecord where
  command_name : String
  server_id : String
  user_id : String
  success : Bool
  execution_time : ℤ
  error_message : Option String
  deriving Repr, DecidableEq

/-- A reply the dispatcher delivered to the invoker: its content, the
ephemeral flag, and whether it went out through `interaction.followUp`
rather than `interaction.reply`. -/
structure Reply where
  content : String
  ephemeral : Bool
  isFollowUp : Bool
  deriving Repr, DecidableEq

/-- The platform exception a dispatcher-issued reply call can raise;
these are the only exceptions `handleCommand` can let escape. -/
inductive DispatchError where
  | replyFailed
  | followUpFailed
  deriving Repr, DecidableEq

/-- Everything one call of `handleCommand` does: the audit rows written,
the replies the dispatcher itself delivered, and whether the call
returned normally or propagated an exception to its caller. -/
structure DispatchResult where
  records : List UsageRecord
  replies : List Reply
  outcome : Except DispatchError Unit
  deriving Repr

/-- Embedding of `CommandHandler.logCommandUsage` (lines 46-66): the rows
the call appends to `command_usage`.  `dbFails` says whether the D1
insert throws; the catch inside the function swallows that error, so a
failing insert writes nothing and nothing propagates.  `now` is the
`Date.now()` reading, so the stored execution time is
`now - interaction.createdTimestamp`. -/
def logCommandUsage (i : Interaction) (dbFails : Bool) (now : ℤ)
    (success : Bool) (errorMessage : Option String) : List UsageRecord :=
  if dbFails then []
  else [⟨i.commandName, i.guildId, i.userId, success,
         now - i.createdTimestamp, errorMessage⟩]

/-- Embedding of `CommandHandler.handleCommand` (lines 16-44).
`commands` is the registered-command mapping, `dbFails` the audit-insert
behaviour, `now1` and `now2` the clock readings at the first and second
`logCommandUsage` call.  An unknown name gets the not-found reply outside
any try/catch; a resolved command is first audit-logged with
success true, then executed; if it throws, a failure row is logged and
the generic notice is sent — by follow-up when a reply was already sent
or deferred, by initial reply otherwise.  Reply calls that fail propagate
their exception out of the function. -/
def handleCommand (commands : String → Option Command) (i : Interaction)
    (dbFails : Bool) (now1 now2 : ℤ) : DispatchResult :=
  match commands i.commandName with
  | none =>
    if i.replyFails then ⟨[], [], .error .replyFailed⟩
    else ⟨[], [⟨"Command not found!", true, false⟩], .ok ()⟩
  | some command =>
    let attemptLog := logCommandUsage i dbFails now1 true none
    match command.execute with
    | .ok _ => ⟨attemptLog, [], .ok ()⟩
    | .error msg =>
      let failureLog := logCommandUsage i dbFails now2 false (some msg)
      let records := attemptLog ++ failureLog
      if i.replied || i.deferred || command.marksReplied then
        if i.followUpFails then ⟨records, [], .error .followUpFailed⟩
        else ⟨records,
              [⟨"There was an error executing this command!", true, true⟩],
              .ok ()⟩
      else
        if i.replyFails then ⟨records, [], .error .replyFailed⟩
        else ⟨records,
              [⟨"There was an error executing this command!", true, false⟩],
              .ok ()⟩

/-- C8: dispatching a name that is not in the registered-command mapping
delivers the ephemeral not-found reply to the invoker, writes zero audit
rows, and returns normally (the delivery hypothesis `hreply` says the
platform reply call itself succeeds). -/
theorem handleCommand_notFound (commands : String → Option Command)
    (i : Interaction) (dbFails : Bool) (now1 now2 : ℤ)
    (habs : commands i.commandName = none)
    (hreply : i.replyFails = false) :
    handleCommand commands i dbFails now1 now2 =
      ⟨[], [⟨"Command not found!", true, false⟩], .ok ()⟩ := by
  simp [handleCommand, habs, hreply]

/-- Witness for C8: dispatching "foo" against an empty registry yields the
not-found reply, no audit rows and a normal return. -/
theorem handleCommand_notFound_witness :
    handleCommand (fun _ => none)
      ⟨"foo", "g1", "u1", 0, false, false, false, false⟩ false 0 0 =
      ⟨[], [⟨"Command not found!", true, false⟩], .ok ()⟩ :=
  handleCommand_notFound (fun _ => none)
    ⟨"foo", "g1", "u1", 0, false, false, false, false⟩ false 0 0 rfl rfl

/-- C9: when the resolved handler throws, the invoker receives exactly one
dispatcher reply — the fixed generic ephemeral notice, whose content does
not depend on the thrown message — delivered as a follow-up precisely when
a reply was already sent or deferred (at entry or by the handler before it
threw), and as an initial reply otherwise; the dispatch then returns
normally. -/
theorem handleCommand_failure_notice (commands : String → Option Command)
    (i : Interaction) (command : Command) (msg : String) (dbFails : Bool)
    (now1 now2 : ℤ)
    (hres : commands i.commandName = some command)
    (hthrow : command.execute = .error msg)
    (hrf : i.replyFails = false) (hff : i.followUpFails = false) :
    (handleCommand commands i dbFails now1 now2).replies =
      [⟨"There was an error executing this command!", true,
        i.replied || i.deferred || command.marksReplied⟩] ∧
    (handleCommand commands i dbFails now1 now2).outcome = .ok () := by
  simp only [handleCommand, hres, hthrow]
  cases hcond : (i.replied || i.deferred || command.marksReplied) <;>
    simp [hcond, hrf, hff]

/-- Witness for C9: a handler that throws "boom" with nothing replied or
deferred beforehand gets the generic notice as an initial (non-follow-up)
ephemeral reply, and dispatch returns normally. -/
theorem handleCommand_failure_notice_witness :
    (handleCommand (fun _ => some ⟨.error "boom", false⟩)
        ⟨"ping", "g1", "u1", 0, false, false, false, false⟩ false 3 7).replies =
      [⟨"There was an error executing this command!", true, false⟩] ∧
    (handleCommand (fun _ => some ⟨.error "boom", false⟩)
        ⟨"ping", "g1", "u1", 0, false, false, false, false⟩ false 3 7).outcome =
      .ok () := by
  have h := handleCommand_failure_notice (fun _ => some ⟨.error "boom", false⟩)
      ⟨"ping", "g1", "u1", 0, false, false, false, false⟩
      ⟨.error "boom", false⟩ "boom" false 3 7 rfl rfl rfl rfl
  simpa using h

/-- Counterexample to C3 as stated: when the command name is unregistered
and the platform not-found reply call itself throws, that exception
escapes `handleCommand` — the reply is issued outside any try/catch. -/
theorem handleCommand_reply_failure_propagates :
    (handleCommand (fun _ => none)
        ⟨"foo", "g1", "u1", 0, false, false, true, false⟩ false 0 0).outcome =
      .error .replyFailed := rfl

/-- C3 amended: dispatch never propagates the exception thrown by the
handler or an audit-write failure; provided its own reply and follow-up
calls succeed, it always returns normally, for every registry, command
name and audit-write behaviour. -/
theorem handleCommand_no_propagation (commands : String → Option Command)
    (i : Interaction) (dbFails : Bool) (now1 now2 : ℤ)
    (hrf : i.replyFails = false) (hff : i.followUpFails = false) :
    (handleCommand commands i dbFails now1 now2).outcome = .ok () := by
  unfold handleCommand
  cases hres : commands i.commandName with
  | none => simp [hrf]
  | some command =>
    cases hex : command.execute with
    | ok u => simp [hex]
    | error msg =>
      cases hcond : (i.replied || i.deferred || command.marksReplied) <;>
        simp [hcond, hrf, hff, hex]

/-- Witness for C3 amended: a registered handler that throws, with a
failing audit write, still lets dispatch return normally when the reply
calls succeed. -/
theorem handleCommand_no_propagation_witness :
    (handleCommand (fun _ => some ⟨.error "boom", true⟩)
        ⟨"ping", "g1", "u1", 0, false, false, false, false⟩ true 0 0).outcome =
      .ok () :=
  handleCommand_no_propagation (fun _ => some ⟨.error "boom", true⟩)
    ⟨"ping", "g1", "u1", 0, false, false, false, false⟩ true 0 0 rfl rfl

/-- Counterexample to C1 as stated: a registered handler that throws
"boom" (with succeeding audit writes) produces two usage rows for the one
invocation — a success row written before execution and a failure row
written after — not exactly one. -/
theorem handleCommand_two_audit_rows_on_boom :
    (handleCommand (fun _ => some ⟨.error "boom", false⟩)
        ⟨"ping", "g1", "u1", 0, false, false, false, false⟩ false 3 7).records =
      [⟨"ping", "g1", "u1", true, 3, none⟩,
       ⟨"ping", "g1", "u1", false, 7, some "boom"⟩] := rfl

/-- C1 amended: with succeeding audit writes, every resolved invocation is
audit-logged with success true before the handler runs; a returning
handler therefore yields exactly that one row, while a handler throwing
`msg` yields exactly two rows — the pre-execution success row followed by
a failure row carrying `success = false` and `error_message = msg`. -/
theorem handleCommand_audit_rows (commands : String → Option Command)
    (i : Interaction) (command : Command) (now1 now2 : ℤ)
    (hres : commands i.commandName = some command) :
    (command.execute = .ok () →
      (handleCommand commands i false now1 now2).records =
        [⟨i.commandName, i.guildId, i.userId, true,
          now1 - i.createdTimestamp, none⟩]) ∧
    (∀ msg, command.execute = .error msg →
      (handleCommand commands i false now1 now2).records =
        [⟨i.commandName, i.guildId, i.userId, true,
          now1 - i.createdTimestamp, none⟩,
         ⟨i.commandName, i.guildId, i.userId, false,
          now2 - i.createdTimestamp, some msg⟩]) := by
  constructor
  · intro hok
    simp [handleCommand, hres, hok, logCommandUsage]
  · intro msg herr
    simp only [handleCommand, hres, herr, logCommandUsage]
    cases hcond : (i.replied || i.deferred || command.marksReplied) <;>
      cases hrf : i.replyFails <;> cases hff : i.followUpFails <;>
        simp [hcond, hrf, hff]

/-- Witness for C1 amended: the handler throwing "boom" with clock
readings 4 and 9 against creation timestamp 1 writes the success row
(execution time 3) and then the boom failure row (execution time 8). -/
theorem handleCommand_audit_rows_witness :
    (handleCommand (fun _ => some ⟨.error "boom", true⟩)
        ⟨"ping", "g1", "u1", 1, true, false, false, false⟩ false 4 9).records =
      [⟨"ping", "g1", "u1", true, 3, none⟩,
       ⟨"ping", "g1", "u1", false, 8, some "boom"⟩] := by
  have h := (handleCommand_audit_rows (fun _ => some ⟨.error "boom", true⟩)
      ⟨"ping", "g1", "u1", 1, true, false, false, false⟩
      ⟨.error "boom", true⟩ 4 9 rfl).2 "boom" rfl
  rw [h]
  norm_num

/-- A stored `server_configs` row. -/
structure ServerConfigRow where
  server_id : String
  server_name : String
  created_at : ℤ
  leveling_enabled : Bool
  deriving Repr, DecidableEq

/-- The guild fields the join path reads: `guild.id` and `guild.name`. -/
structure GuildInfo where
  id : String
  name : String

/-- The singleton `bot_stats` row (fixed key, replace semantics). -/
structure BotStatsRow where
  total_servers : ℕ
  total_users : ℕ
  last_restart : ℤ
  recorded_at : ℤ
  deriving Repr, DecidableEq

/-- The store state the join path touches: the `server_configs` table and
the `bot_stats` singleton. -/
structure BotState where
  server_configs : List ServerConfigRow
  bot_stats : Option BotStatsRow

/-- Modelled from the spec: the `server_configs` schema file is not under
src/; section 6 of the spec declares `leveling_enabled DEFAULT true`, and
the INSERT in `createServerConfig` omits that column, so a row it inserts
carries this default. -/
def levelingEnabledDefault : Bool := true

/-- Embedding of `EventHandler.createServerConfig` (lines 161-170): an
INSERT OR IGNORE keyed on the unique `server_id` — a row is appended only
when no row with that identifier exists, and an existing row is left
untouched. -/
def createServerConfig (configs : List ServerConfigRow) (g : GuildInfo)
    (now : ℤ) : List ServerConfigRow :=
  if configs.any fun c => c.server_id == g.id then configs
  else configs ++ [⟨g.id, g.name, now, levelingEnabledDefault⟩]

/-- Embedding of `EventHandler.updateBotStats` (lines 146-159): the
`bot_stats` singleton is fully overwritten (INSERT OR REPLACE) from the
live aggregate counts; `server_configs` is untouched. -/
def updateBotStats (s : BotState) (totalServers totalUsers : ℕ)
    (now : ℤ) : BotState :=
  { s with bot_stats := some ⟨totalServers, totalUsers, now, now⟩ }

/-- Embedding of the `guildCreate` listener (lines 105-113): create the
server config, then recompute the bot stats from the live counts. -/
def onGuildCreate (s : BotState) (g : GuildInfo) (now : ℤ)
    (totalServers totalUsers : ℕ) : BotState :=
  updateBotStats
    { s with server_configs := createServerConfig s.server_configs g now }
    totalServers totalUsers now

/-- C7: running the join path twice for the same server identifier leaves
exactly one `server_configs` row for that identifier, and it carries the
fields written by the first call (name, creation timestamp, leveling default); the
second call alters nothing. -/
theorem onGuildCreate_idempotent (s : BotState) (g1 g2 : GuildInfo)
    (now1 now2 : ℤ) (ts1 tu1 ts2 tu2 : ℕ)
    (hid : g2.id = g1.id)
    (habs : ∀ c ∈ s.server_configs, c.server_id ≠ g1.id) :
    ((onGuildCreate (onGuildCreate s g1 now1 ts1 tu1) g2 now2 ts2
        tu2).server_configs.filter fun c => c.server_id == g1.id) =
      [⟨g1.id, g1.name, now1, levelingEnabledDefault⟩] := by
  have hfalse : (s.server_configs.any fun c => c.server_id == g1.id) = false := by
    rw [List.any_eq_false]
    intro c hc
    simpa using habs c hc
  have hfirst : createServerConfig s.server_configs g1 now1 =
      s.server_configs ++ [⟨g1.id, g1.name, now1, levelingEnabledDefault⟩] := by
    simp [createServerConfig, hfalse]
  have hyes : ((s.server_configs ++
      [(⟨g1.id, g1.name, now1, levelingEnabledDefault⟩ : ServerConfigRow)]).any
        fun c => c.server_id == g2.id) = true := by
    rw [List.any_eq_true]
    exact ⟨(⟨g1.id, g1.name, now1, levelingEnabledDefault⟩ : ServerConfigRow),
      by simp, by simp [hid]⟩
  have hnil : (s.server_configs.filter fun c => c.server_id == g1.id) = [] := by
    rw [List.filter_eq_nil_iff]
    intro c hc
    simpa using habs c hc
  simp only [onGuildCreate, updateBotStats, hfirst]
  simp only [createServerConfig]
  rw [if_pos hyes, List.filter_append, hnil]
  simp

/-- Witness for C7: joining server "s1" twice (second join reporting a
different name and timestamp) leaves exactly the row of the first join. -/
theorem onGuildCreate_idempotent_witness :
    ((onGuildCreate (onGuildCreate ⟨[], none⟩ ⟨"s1", "Alpha"⟩ 100 1 10)
        ⟨"s1", "Beta"⟩ 200 1 10).server_configs.filter
      fun c => c.server_id == "s1") =
      [⟨"s1", "Alpha", 100, levelingEnabledDefault⟩] := by
  have h := onGuildCreate_idempotent ⟨[], none⟩ ⟨"s1", "Alpha"⟩ ⟨"s1", "Beta"⟩
      100 200 1 10 1 10 rfl (by simp)
  simpa using h

end QuantumBot
